/- Verification of the st-scaling-factor contract core: a shallow embedding of
   src/src/helpers.rs, src/src/state.rs, src/src/msg.rs and src/src/contract.rs,
   with theorems settling the specified properties. -/
import Mathlib

namespace StScalingFactor

/-! ## Fixed-point decimals (cosmwasm_std::Decimal)

A cosmwasm Decimal is an unsigned 128-bit integer of "atomics" denoting the
rational value atomics / 10^18.  We model the atomics as a Nat; the 2^128
bound enters explicitly where the Rust arithmetic checks or wraps. -/

/-- Number of atomics per unit: 10^18 (Decimal::DECIMAL_FRACTIONAL). -/
def decimalFractional : Nat := 10 ^ 18

/-- Shallow embedding of cosmwasm_std::Decimal: the raw atomics value.
    A well-formed value has atomics < 2^128. -/
structure Decimal where
  atomics : Nat
  deriving Repr, DecidableEq

/-- Decimal::from_ratio(num, den) = num * 10^18 / den.  The Rust version
    panics on den = 0 or on overflow; the contract only applies it to
    (100000, 1), where neither occurs, so those panics are not modelled. -/
def Decimal.from_ratio (num den : Nat) : Decimal :=
  ⟨num * decimalFractional / den⟩

/-- Decimal multiplication: full-width product of atomics divided by 10^18,
    then checked to fit u128 (the Rust Mul impl panics on overflow, which we
    model as none). -/
def Decimal.mul (a b : Decimal) : Option Decimal :=
  let prod := a.atomics * b.atomics / decimalFractional
  if prod < 2 ^ 128 then some ⟨prod⟩ else none

/-- Decimal::to_uint_floor: the integer part, atomics / 10^18. -/
def Decimal.toUintFloor (d : Decimal) : Nat :=
  d.atomics / decimalFractional

/-- The `as u64` cast applied to a u128 value in Rust: keep the low 64 bits. -/
def u128AsU64 (n : Nat) : Nat := n % 2 ^ 64

/-- Strip trailing zero characters (helper for the Decimal Display impl). -/
def stripTrailingZeros (cs : List Char) : List Char :=
  (cs.reverse.dropWhile (fun c => c == '0')).reverse

/-- Display impl of cosmwasm Decimal: whole part, then a dot and the
    18-digit zero-padded fractional part with trailing zeros trimmed,
    the dot and fraction omitted when the fractional part is zero. -/
def Decimal.display (d : Decimal) : String :=
  let whole := d.atomics / decimalFractional
  let fractional := d.atomics % decimalFractional
  if fractional = 0 then toString whole
  else
    let fracStr := toString fractional
    let padded := String.mk (List.replicate (18 - fracStr.length) '0') ++ fracStr
    toString whole ++ "." ++ String.mk (stripTrailingZeros padded.toList)

/-- Mathematical (unbounded) value used by the specification: the rational
    value of a Decimal, atomics / 10^18. -/
def Decimal.ratValue (d : Decimal) : ℚ := (d.atomics : ℚ) / ((10 : ℚ) ^ 18)

/-- Modelled from the spec: the quantity `scaled = floor(rate × 100000)`
    computed with exact (unbounded) arithmetic, used to compare the code
    against the specified conversion. -/
def specFloorScaled (d : Decimal) : Nat := Nat.floor (d.ratValue * 100000)

/-! ## AssetOrdering and the rate converter (state.rs, helpers.rs) -/

/-- Ordering of the two assets (stToken and native token) in the pool
    (state.rs AssetOrdering). -/
inductive AssetOrdering where
  | nativeTokenFirst
  | stTokenFirst
  deriving Repr, DecidableEq

/-- The Display impl for AssetOrdering in state.rs. -/
def AssetOrdering.display : AssetOrdering → String
  | .nativeTokenFirst => "native_token_first"
  | .stTokenFirst => "st_token_first"

/-- helpers.rs convert_redemption_rate_to_scaling_factors.  The Rust body is
      let multiplier_int: u64 = 100_000;
      let multiplier_dec = Decimal::from_ratio(multiplier_int, 1u64);
      let scaling_factor = (redemption_rate * multiplier_dec).to_uint_floor().u128() as u64;
      match asset_ordering ...
    The Decimal multiplication panics on overflow (modelled as none); the
    `as u64` cast keeps the low 64 bits. -/
def convert_redemption_rate_to_scaling_factors
    (redemption_rate : Decimal) (asset_ordering : AssetOrdering) :
    Option (List Nat) :=
  let multiplier_int : Nat := 100000
  let multiplier_dec := Decimal.from_ratio multiplier_int 1
  match Decimal.mul redemption_rate multiplier_dec with
  | none => none
  | some product =>
      let scaling_factor := u128AsU64 product.toUintFloor
      some (match asset_ordering with
        | AssetOrdering.stTokenFirst => [multiplier_int, scaling_factor]
        | AssetOrdering.nativeTokenFirst => [scaling_factor, multiplier_int])

/-! ## The pool validator (helpers.rs) -/

/-- A pool asset (osmosis Coin): denom and amount (amount is an unparsed
    string in the proto type and is never inspected by this contract). -/
structure Coin where
  denom : String
  amount : String
  deriving Repr, DecidableEq

instance : Inhabited Coin := ⟨⟨"", ""⟩⟩

/-- The stableswap pool snapshot returned by the AMM query; only the id and
    pool_liquidity fields are read by this contract, the remaining proto
    fields are never inspected and are omitted. -/
structure StableswapPool where
  id : Nat
  pool_liquidity : List Coin
  deriving Repr, DecidableEq

/-- Contract error type.  Modelled from the spec: error.rs is not under src/
    (only its uses in contract.rs and helpers.rs are), so the variants are
    reconstructed from those uses and the error taxonomy of the spec.
    The std variant carries the message of a propagated StdError. -/
inductive ContractError where
  | unauthorized
  | poolAlreadyExists (pool_id : Nat)
  | poolNotFound (pool_id : Nat)
  | poolNotFoundOsmosis (pool_id : Nat)
  | invalidNumberOfPoolAssets (number : Nat)
  | invalidPoolAssetOrdering
  | unableToQueryRedemptionRate (token : String) (error : String)
  | std (message : String)
  deriving Repr, DecidableEq

/-- The index at which the stToken is expected, from the match inside
    validate_pool_configuration: StTokenFirst maps to 0, anything else to 1. -/
def expectedSttokenIndex : AssetOrdering → Nat
  | AssetOrdering.stTokenFirst => 0
  | _ => 1

/-- helpers.rs validate_pool_configuration: checks the pool id, the asset
    count (exactly 2), and the denom at the index implied by the declared
    ordering, in that order.  The Rust indexing pool_liquidity[idx] is in
    bounds because the length-2 check precedes it; getD mirrors it. -/
def validate_pool_configuration
    (stableswap_pool : StableswapPool) (pool_id : Nat)
    (sttoken_denom : String) (asset_ordering : AssetOrdering) :
    Except ContractError Unit :=
  if pool_id ≠ stableswap_pool.id then
    Except.error (ContractError.poolNotFoundOsmosis pool_id)
  else if stableswap_pool.pool_liquidity.length ≠ 2 then
    Except.error (ContractError.invalidNumberOfPoolAssets
      stableswap_pool.pool_liquidity.length)
  else
    let idx := expectedSttokenIndex asset_ordering
    if sttoken_denom ≠ (stableswap_pool.pool_liquidity.getD idx default).denom then
      Except.error ContractError.invalidPoolAssetOrdering
    else
      Except.ok ()

/-! ## Contract state (state.rs): Config and the POOLS map

cw_storage_plus stores the pools keyed by u64 pool id and iterates them in
ascending key order; we model the store as an association list kept sorted
by key (save inserts in order, replacing an existing entry). -/

/-- state.rs Config. -/
structure Config where
  admin_address : String
  oracle_contract_address : String
  deriving Repr, DecidableEq

/-- state.rs Pool. -/
structure Pool where
  pool_id : Nat
  sttoken_denom : String
  asset_ordering : AssetOrdering
  last_updated : Nat
  deriving Repr, DecidableEq

/-- POOLS.load / POOLS.may_load semantics on the association list. -/
def poolsGet : List (Nat × Pool) → Nat → Option Pool
  | [], _ => none
  | (k, p) :: rest, key => if key = k then some p else poolsGet rest key

/-- POOLS.has. -/
def poolsHas (ps : List (Nat × Pool)) (key : Nat) : Bool :=
  (poolsGet ps key).isSome

/-- POOLS.save: insert keeping keys in ascending order, replacing an entry
    with the same key (key-value stores overwrite on save). -/
def poolsSave : List (Nat × Pool) → Nat → Pool → List (Nat × Pool)
  | [], key, p => [(key, p)]
  | (k, q) :: rest, key, p =>
      if key < k then (key, p) :: (k, q) :: rest
      else if key = k then (key, p) :: rest
      else (k, q) :: poolsSave rest key p

/-- POOLS.remove. -/
def poolsRemove (ps : List (Nat × Pool)) (key : Nat) : List (Nat × Pool) :=
  ps.filter (fun kv => kv.fst ≠ key)

/-- The whole persistent state: the CONFIG item and the POOLS map. -/
structure ContractState where
  config : Config
  pools : List (Nat × Pool)
  deriving Repr, DecidableEq

/-- Well-formedness of the modelled store: keys strictly ascending (as the
    byte-ordered key-value store guarantees) and each record carrying its own
    key in the pool_id field (established by add_pool, preserved by all
    operations). -/
def StoreWF (s : ContractState) : Prop :=
  List.Pairwise (fun a b => a < b) (s.pools.map Prod.fst) ∧
    ∀ kv ∈ s.pools, (Prod.snd kv).pool_id = Prod.fst kv

instance : DecidablePred StoreWF := fun s => by
  unfold StoreWF
  infer_instance

/-! ## Messages, environment and responses (msg.rs, contract.rs) -/

/-- Execution environment: the contract address and the block time in
    seconds (env.contract.address, env.block.time.seconds()). -/
structure Env where
  contract_address : String
  block_time : Nat
  deriving Repr, DecidableEq

/-- Message metadata: the sender address. -/
structure MessageInfo where
  sender : String
  deriving Repr, DecidableEq

/-- The oracle query enum as declared in msg.rs: its only variant is Price
    (with a PriceResponse of exchange_rate and update_time).  Note that
    contract.rs does not use this variant: it references
    OracleQueryMsg::RedemptionRate and RedemptionRateResponse, which msg.rs
    never declares; see ContractOracleQueryMsg below. -/
inductive OracleQueryMsg where
  | price (denom : String) (params : Option String)
  deriving Repr, DecidableEq

/-- msg.rs PriceResponse (the response of the declared Price query). -/
structure PriceResponse where
  exchange_rate : Decimal
  update_time : Nat
  deriving Repr, DecidableEq

/-- Modelled from the spec: the oracle query variant
    RedemptionRate (denom, params) that contract.rs constructs and sends.
    msg.rs (the declared oracle interface under src/) has no such variant,
    declaring only Price; the declaration contract.rs relies on is missing
    from src/, so it is reconstructed here from the collaborator interface
    given in the spec. -/
inductive ContractOracleQueryMsg where
  | redemptionRate (denom : String) (params : Option String)
  deriving Repr, DecidableEq

/-- Modelled from the spec: the RedemptionRateResponse that contract.rs
    deserializes the oracle answer into (redemption_rate, update_time);
    likewise absent from msg.rs under src/. -/
structure RedemptionRateResponse where
  redemption_rate : Decimal
  update_time : Nat
  deriving Repr, DecidableEq

/-- A WasmQuery::Smart request to the oracle: target contract address and
    the serialized query message. -/
structure OracleQueryRequest where
  contract_addr : String
  msg : ContractOracleQueryMsg
  deriving Repr, DecidableEq

/-- The oracle querier collaborator: one request to one response or an
    error message string (the StdError text the contract wraps). -/
abbrev OracleQuerier : Type := OracleQueryRequest → Except String RedemptionRateResponse

/-- The AMM pool-lookup collaborator (PoolmanagerQuerier::pool followed by
    the Any to StableswapPool conversion): an error string models a failed
    query or a failed proto conversion (both propagate as Std errors), the
    inner Option models the optional pool field of the response. -/
abbrev AmmQuerier : Type := Nat → Except String (Option StableswapPool)

/-- The osmosis MsgStableSwapAdjustScalingFactors transaction emitted as an
    outbound message. -/
structure MsgStableSwapAdjustScalingFactors where
  sender : String
  pool_id : Nat
  scaling_factors : List Nat
  deriving Repr, DecidableEq

/-- Response: attributes and outbound messages (every message this contract
    emits is a MsgStableSwapAdjustScalingFactors). -/
structure Response where
  attributes : List (String × String)
  messages : List MsgStableSwapAdjustScalingFactors
  deriving Repr, DecidableEq

/-- msg.rs ExecuteMsg. -/
inductive ExecuteMsg where
  | updateConfig (admin_address : String) (oracle_contract_address : String)
  | addPool (pool_id : Nat) (sttoken_denom : String) (asset_ordering : AssetOrdering)
  | removePool (pool_id : Nat)
  | updateScalingFactor (pool_id : Nat)
  | sudoAdjustScalingFactors (pool_id : Nat) (scaling_factors : List Nat)
  deriving Repr, DecidableEq

/-- Result of one handler invocation: the outcome (none models a Rust
    panic, some carries the returned Result) together with the storage as
    left by the handler itself (all contract writes are explicit, so an
    error outcome paired with the unchanged input state is exactly the
    no-partial-persistence property). -/
abbrev ExecResult : Type := Option (Except ContractError Response) × ContractState

/-! ## The five execute handlers and the dispatcher (contract.rs) -/

/-- contract.rs instantiate: stores the validated config (address-format
    validation and the cw2 version bookkeeping are outside the core). -/
def instantiate (admin_address oracle_contract_address : String) : ContractState :=
  { config := { admin_address, oracle_contract_address }, pools := [] }

/-- contract.rs execute_update_config: admin-gated wholesale replacement of
    the config. -/
def execute_update_config (s : ContractState) (info : MessageInfo)
    (admin_address oracle_contract_address : String) : ExecResult :=
  if info.sender ≠ s.config.admin_address then
    (some (Except.error ContractError.unauthorized), s)
  else
    let updated_config : Config := { admin_address, oracle_contract_address }
    (some (Except.ok
      { attributes :=
          [("action", "update_config"),
           ("admin_address", admin_address),
           ("oracle_contract_address", oracle_contract_address)],
        messages := [] }),
     { s with config := updated_config })

/-- contract.rs execute_add_pool: admin check, duplicate check, AMM query,
    configuration validation, then store the new pool with last_updated 0. -/
def execute_add_pool (ammQ : AmmQuerier) (s : ContractState) (info : MessageInfo)
    (pool_id : Nat) (sttoken_denom : String) (asset_ordering : AssetOrdering) :
    ExecResult :=
  if info.sender ≠ s.config.admin_address then
    (some (Except.error ContractError.unauthorized), s)
  else if poolsHas s.pools pool_id then
    (some (Except.error (ContractError.poolAlreadyExists pool_id)), s)
  else
    match ammQ pool_id with
    | Except.error e => (some (Except.error (ContractError.std e)), s)
    | Except.ok none =>
        (some (Except.error (ContractError.poolNotFoundOsmosis pool_id)), s)
    | Except.ok (some stableswap_pool) =>
        match validate_pool_configuration stableswap_pool pool_id
            sttoken_denom asset_ordering with
        | Except.error e => (some (Except.error e), s)
        | Except.ok _ =>
            let pool : Pool :=
              { pool_id, sttoken_denom, asset_ordering, last_updated := 0 }
            (some (Except.ok
              { attributes :=
                  [("action", "add_pool"),
                   ("pool_id", toString pool_id),
                   ("pool_sttoken_denom", sttoken_denom),
                   ("pool_asset_ordering", asset_ordering.display)],
                messages := [] }),
             { s with pools := poolsSave s.pools pool_id pool })

/-- contract.rs execute_remove_pool: admin check, existence check, delete. -/
def execute_remove_pool (s : ContractState) (info : MessageInfo)
    (pool_id : Nat) : ExecResult :=
  if info.sender ≠ s.config.admin_address then
    (some (Except.error ContractError.unauthorized), s)
  else if ¬ poolsHas s.pools pool_id then
    (some (Except.error (ContractError.poolNotFound pool_id)), s)
  else
    (some (Except.ok
      { attributes := [("action", "remove_pool"), ("pool_id", toString pool_id)],
        messages := [] }),
     { s with pools := poolsRemove s.pools pool_id })

/-- contract.rs execute_update_scaling_factor: permissionless refresh.
    Registration check, oracle query for the redemption rate of the
    sttoken denom (failure wrapped as UnableToQueryRedemptionRate),
    conversion to scaling factors (the Decimal multiplication can panic:
    none), emission of the adjust message, and the last_updated write.
    The indexing scaling_factors[0] and scaling_factors[1] in the attribute
    string is within bounds since the converter always yields two factors;
    the unreachable out-of-bounds case is modelled as the panic it would
    be in Rust. -/
def execute_update_scaling_factor (oracleQ : OracleQuerier) (s : ContractState)
    (env : Env) (pool_id : Nat) : ExecResult :=
  match poolsGet s.pools pool_id with
  | none => (some (Except.error (ContractError.poolNotFound pool_id)), s)
  | some pool =>
      match oracleQ { contract_addr := s.config.oracle_contract_address,
                      msg := ContractOracleQueryMsg.redemptionRate
                               pool.sttoken_denom none } with
      | Except.error err =>
          (some (Except.error (ContractError.unableToQueryRedemptionRate
            pool.sttoken_denom err)), s)
      | Except.ok redemption_rate_response =>
          match convert_redemption_rate_to_scaling_factors
              redemption_rate_response.redemption_rate pool.asset_ordering with
          | none => (none, s)
          | some scaling_factors =>
              match scaling_factors.get? 0, scaling_factors.get? 1 with
              | some sf0, some sf1 =>
                  (some (Except.ok
                    { attributes :=
                        [("action", "update_scaling_factor"),
                         ("pool_id", toString pool_id),
                         ("redemption_rate",
                          redemption_rate_response.redemption_rate.display),
                         ("scaling_factors",
                          "[" ++ toString sf0 ++ ", " ++ toString sf1 ++ "]")],
                      messages := [{ sender := env.contract_address,
                                     pool_id := pool_id,
                                     scaling_factors := scaling_factors }] }),
                   { s with
                     pools :=
                       poolsSave s.pools pool_id
                         { pool with last_updated := env.block_time } })
              | _, _ => (none, s)

/-- contract.rs execute_sudo_adjust_scaling_factors: admin check, then the
    adjust message is built directly from the caller-supplied factors with
    no registry or oracle access.  The attribute formatting indexes
    scaling_factors[0] and scaling_factors[1] on the unchecked vector, so a
    list with fewer than two elements panics (none). -/
def execute_sudo_adjust_scaling_factors (s : ContractState) (env : Env)
    (info : MessageInfo) (pool_id : Nat) (scaling_factors : List Nat) :
    ExecResult :=
  if info.sender ≠ s.config.admin_address then
    (some (Except.error ContractError.unauthorized), s)
  else
    match scaling_factors.get? 0, scaling_factors.get? 1 with
    | some sf0, some sf1 =>
        (some (Except.ok
          { attributes :=
              [("action", "sudo_adjust_scaling_factors"),
               ("pool_id", toString pool_id),
               ("scaling_factors",
                "[" ++ toString sf0 ++ "," ++ toString sf1 ++ "]")],
            messages := [{ sender := env.contract_address, pool_id := pool_id,
                           scaling_factors := scaling_factors }] }),
         s)
    | _, _ => (none, s)

/-- contract.rs execute: dispatch on the message. -/
def execute (ammQ : AmmQuerier) (oracleQ : OracleQuerier) (s : ContractState)
    (env : Env) (info : MessageInfo) : ExecuteMsg → ExecResult
  | ExecuteMsg.updateConfig admin_address oracle_contract_address =>
      execute_update_config s info admin_address oracle_contract_address
  | ExecuteMsg.addPool pool_id sttoken_denom asset_ordering =>
      execute_add_pool ammQ s info pool_id sttoken_denom asset_ordering
  | ExecuteMsg.removePool pool_id => execute_remove_pool s info pool_id
  | ExecuteMsg.updateScalingFactor pool_id =>
      execute_update_scaling_factor oracleQ s env pool_id
  | ExecuteMsg.sudoAdjustScalingFactors pool_id scaling_factors =>
      execute_sudo_adjust_scaling_factors s env info pool_id scaling_factors

/-! ## Query handlers (contract.rs) -/

/-- QueryMsg::Pool: POOLS.load, failing (none) when absent. -/
def query_pool (s : ContractState) (pool_id : Nat) : Option Pool :=
  poolsGet s.pools pool_id

/-- msg.rs Pools, the response of QueryMsg::AllPools. -/
structure Pools where
  pools : List Pool
  deriving Repr, DecidableEq

/-- contract.rs query_all_pools: all pools in ascending key order. -/
def query_all_pools (s : ContractState) : Pools :=
  { pools := s.pools.map Prod.snd }

/-! ## Fixtures used by the witness theorems -/

/-- A registered pool used in concrete witnesses. -/
def wPool : Pool := ⟨2, "stuosmo", AssetOrdering.stTokenFirst, 0⟩

/-- A contract state with one registered pool. -/
def wState : ContractState := ⟨⟨"admin", "oracle"⟩, [(2, wPool)]⟩

/-- A block environment used in concrete witnesses. -/
def wEnv : Env := ⟨"cosmos2contract", 1000000⟩

/-- An oracle querier answering every query with the rate 1.2. -/
def wOracleQ : OracleQuerier := fun _ => Except.ok ⟨⟨12 * 10 ^ 17⟩, 1⟩

/-- An oracle querier failing every query. -/
def wOracleQFail : OracleQuerier := fun _ => Except.error "Unknown"

/-- An AMM querier returning a two-asset stableswap pool with id 7. -/
def wAmmQ : AmmQuerier :=
  fun _ => Except.ok (some ⟨7, [⟨"stX", "100000"⟩, ⟨"native", "100000"⟩]⟩)

/-! ## Lemmas about the converter -/

theorem specFloorScaled_eq (d : Decimal) :
    specFloorScaled d = d.atomics * 100000 / 10 ^ 18 := by
  unfold specFloorScaled Decimal.ratValue
  have h : (d.atomics : ℚ) / ((10 : ℚ) ^ 18) * 100000
      = ((d.atomics * 100000 : ℕ) : ℚ) / ((10 ^ 18 : ℕ) : ℚ) := by
    push_cast
    ring
  rw [h, Nat.floor_div_eq_div]

theorem mul_multiplier (r : Decimal) :
    Decimal.mul r (Decimal.from_ratio 100000 1) =
      if r.atomics * 100000 < 2 ^ 128 then some ⟨r.atomics * 100000⟩ else none := by
  have hprod : r.atomics * (Decimal.from_ratio 100000 1).atomics / decimalFractional
      = r.atomics * 100000 := by
    show r.atomics * (100000 * decimalFractional / 1) / decimalFractional = _
    rw [Nat.div_one, ← Nat.mul_assoc]
    exact Nat.mul_div_cancel _ (by unfold decimalFractional; positivity)
  simp only [Decimal.mul]
  rw [hprod]

theorem convert_closed_form (r : Decimal) (ord : AssetOrdering) :
    convert_redemption_rate_to_scaling_factors r ord =
      if r.atomics * 100000 < 2 ^ 128 then
        some (match ord with
          | AssetOrdering.stTokenFirst =>
              [100000, r.atomics * 100000 / 10 ^ 18 % 2 ^ 64]
          | AssetOrdering.nativeTokenFirst =>
              [r.atomics * 100000 / 10 ^ 18 % 2 ^ 64, 100000])
      else none := by
  simp only [convert_redemption_rate_to_scaling_factors]
  rw [mul_multiplier]
  by_cases h : r.atomics * 100000 < 2 ^ 128
  · rw [if_pos h, if_pos h]
    cases ord <;> rfl
  · rw [if_neg h, if_neg h]

/-! ## Lemmas about the modelled POOLS store -/

theorem poolsGet_save_self (ps : List (Nat × Pool)) (k : Nat) (p : Pool) :
    poolsGet (poolsSave ps k p) k = some p := by
  induction ps with
  | nil => simp [poolsSave, poolsGet]
  | cons kv rest ih =>
      obtain ⟨j, q⟩ := kv
      unfold poolsSave
      by_cases h1 : k < j
      · simp [h1, poolsGet]
      · by_cases h2 : k = j
        · simp [h1, h2, poolsGet]
        · simp [h1, h2, poolsGet, ih]

theorem poolsGet_save_ne (ps : List (Nat × Pool)) (k j : Nat) (p : Pool)
    (h : j ≠ k) : poolsGet (poolsSave ps k p) j = poolsGet ps j := by
  induction ps with
  | nil => simp [poolsSave, poolsGet, h]
  | cons kv rest ih =>
      obtain ⟨i, q⟩ := kv
      unfold poolsSave
      by_cases h1 : k < i
      · simp [h1, poolsGet, h]
      · by_cases h2 : k = i
        · subst h2
          simp [h1, poolsGet, h]
        · by_cases h3 : j = i
          · simp [h1, h2, h3, poolsGet]
          · simp [h1, h2, h3, poolsGet, ih]

theorem poolsGet_remove_self (ps : List (Nat × Pool)) (k : Nat) :
    poolsGet (poolsRemove ps k) k = none := by
  induction ps with
  | nil => rfl
  | cons kv rest ih =>
      obtain ⟨i, q⟩ := kv
      by_cases h : i = k
      · simpa [poolsRemove, List.filter_cons, h] using ih
      · have hne : k ≠ i := fun e => h e.symm
        simpa [poolsRemove, List.filter_cons, h, poolsGet, hne] using ih

theorem poolsGet_remove_ne (ps : List (Nat × Pool)) (k j : Nat) (h : j ≠ k) :
    poolsGet (poolsRemove ps k) j = poolsGet ps j := by
  induction ps with
  | nil => rfl
  | cons kv rest ih =>
      obtain ⟨i, q⟩ := kv
      by_cases h1 : i = k
      · subst h1
        simpa [poolsRemove, List.filter_cons, poolsGet, h] using ih
      · by_cases h2 : j = i
        · simp [poolsRemove, List.filter_cons, h1, poolsGet, h2]
        · simpa [poolsRemove, List.filter_cons, h1, poolsGet, h2] using ih

theorem keys_save_mem (ps : List (Nat × Pool)) (k : Nat) (p : Pool) (b : Nat)
    (hb : b ∈ (poolsSave ps k p).map Prod.fst) :
    b = k ∨ b ∈ ps.map Prod.fst := by
  induction ps with
  | nil =>
      simp [poolsSave] at hb
      exact Or.inl hb
  | cons kv rest ih =>
      obtain ⟨i, q⟩ := kv
      unfold poolsSave at hb
      by_cases h1 : k < i
      · simp only [if_pos h1, List.map_cons, List.mem_cons] at hb
        rcases hb with rfl | rfl | hb'
        · exact Or.inl rfl
        · exact Or.inr (by simp)
        · exact Or.inr (by simp [hb'])
      · by_cases h2 : k = i
        · simp only [if_neg h1, if_pos h2, List.map_cons, List.mem_cons] at hb
          rcases hb with rfl | hb'
          · exact Or.inl rfl
          · exact Or.inr (by simp [hb'])
        · simp only [if_neg h1, if_neg h2, List.map_cons, List.mem_cons] at hb
          rcases hb with rfl | hb'
          · exact Or.inr (by simp)
          · rcases ih hb' with h3 | h3
            · exact Or.inl h3
            · exact Or.inr (by simp [h3])

theorem mem_save (ps : List (Nat × Pool)) (k : Nat) (p : Pool)
    (kv : Nat × Pool) (hkv : kv ∈ poolsSave ps k p) :
    kv = (k, p) ∨ kv ∈ ps := by
  induction ps with
  | nil =>
      simp [poolsSave] at hkv
      exact Or.inl hkv
  | cons hd rest ih =>
      obtain ⟨i, q⟩ := hd
      unfold poolsSave at hkv
      by_cases h1 : k < i
      · simp only [if_pos h1, List.mem_cons] at hkv
        rcases hkv with rfl | rfl | h'
        · exact Or.inl rfl
        · exact Or.inr (by simp)
        · exact Or.inr (by simp [h'])
      · by_cases h2 : k = i
        · simp only [if_neg h1, if_pos h2, List.mem_cons] at hkv
          rcases hkv with rfl | h'
          · exact Or.inl rfl
          · exact Or.inr (by simp [h'])
        · simp only [if_neg h1, if_neg h2, List.mem_cons] at hkv
          rcases hkv with rfl | h'
          · exact Or.inr (by simp)
          · rcases ih h' with h3 | h3
            · exact Or.inl h3
            · exact Or.inr (by simp [h3])

theorem pairwise_keys_save (ps : List (Nat × Pool)) (k : Nat) (p : Pool)
    (h : List.Pairwise (fun a b => a < b) (ps.map Prod.fst)) :
    List.Pairwise (fun a b => a < b) ((poolsSave ps k p).map Prod.fst) := by
  induction ps with
  | nil => simp [poolsSave]
  | cons kv rest ih =>
      obtain ⟨i, q⟩ := kv
      simp only [List.map_cons, List.pairwise_cons] at h
      obtain ⟨hi, hrest⟩ := h
      unfold poolsSave
      by_cases h1 : k < i
      · rw [if_pos h1]
        simp only [List.map_cons, List.pairwise_cons]
        refine ⟨?_, hi, hrest⟩
        intro b hb
        rcases List.mem_cons.mp hb with rfl | hb'
        · exact h1
        · exact lt_trans h1 (hi b hb')
      · by_cases h2 : k = i
        · subst h2
          rw [if_neg h1, if_pos rfl]
          simp only [List.map_cons, List.pairwise_cons]
          exact ⟨hi, hrest⟩
        · rw [if_neg h1, if_neg h2]
          simp only [List.map_cons, List.pairwise_cons]
          refine ⟨?_, ih hrest⟩
          intro b hb
          rcases keys_save_mem rest k p b hb with rfl | hb'
          · omega
          · exact hi b hb'

theorem pairwise_keys_remove (ps : List (Nat × Pool)) (k : Nat)
    (h : List.Pairwise (fun a b => a < b) (ps.map Prod.fst)) :
    List.Pairwise (fun a b => a < b) ((poolsRemove ps k).map Prod.fst) := by
  have hsub : List.Sublist ((poolsRemove ps k).map Prod.fst) (ps.map Prod.fst) :=
    List.Sublist.map Prod.fst (List.filter_sublist ps)
  exact h.sublist hsub

theorem poolsGet_eq_some_of_mem (ps : List (Nat × Pool)) (k : Nat) (p : Pool)
    (hWF : List.Pairwise (fun a b => a < b) (ps.map Prod.fst))
    (hmem : (k, p) ∈ ps) : poolsGet ps k = some p := by
  induction ps with
  | nil => simp at hmem
  | cons kv rest ih =>
      obtain ⟨i, q⟩ := kv
      simp only [List.map_cons, List.pairwise_cons] at hWF
      obtain ⟨hi, hrest⟩ := hWF
      rcases List.mem_cons.mp hmem with h | h
      · rw [Prod.mk.injEq] at h
        obtain ⟨rfl, rfl⟩ := h
        simp [poolsGet]
      · have hk : k ∈ rest.map Prod.fst := by
          exact List.mem_map.mpr ⟨(k, p), h, rfl⟩
        have : i < k := hi k hk
        have hne : k ≠ i := by omega
        simp only [poolsGet, if_neg hne]
        exact ih hrest h

theorem mem_of_poolsGet_eq_some (ps : List (Nat × Pool)) (k : Nat) (p : Pool)
    (hget : poolsGet ps k = some p) : (k, p) ∈ ps := by
  induction ps with
  | nil => simp [poolsGet] at hget
  | cons kv rest ih =>
      obtain ⟨i, q⟩ := kv
      by_cases h : k = i
      · subst h
        unfold poolsGet at hget
        rw [if_pos rfl] at hget
        obtain rfl := Option.some.injEq .. ▸ hget
        simp
      · unfold poolsGet at hget
        rw [if_neg h] at hget
        exact List.mem_cons.mpr (Or.inr (ih hget))

theorem storeWF_save (s : ContractState) (k : Nat) (p : Pool)
    (hWF : StoreWF s) (hid : p.pool_id = k) :
    StoreWF { s with pools := poolsSave s.pools k p } := by
  obtain ⟨hpair, hfield⟩ := hWF
  refine ⟨pairwise_keys_save s.pools k p hpair, ?_⟩
  intro kv hkv
  rcases mem_save s.pools k p kv hkv with rfl | h
  · exact hid
  · exact hfield kv h

theorem storeWF_remove (s : ContractState) (k : Nat) (hWF : StoreWF s) :
    StoreWF { s with pools := poolsRemove s.pools k } := by
  obtain ⟨hpair, hfield⟩ := hWF
  refine ⟨pairwise_keys_remove s.pools k hpair, ?_⟩
  intro kv hkv
  exact hfield kv (List.mem_of_mem_filter hkv)

theorem storeWF_get_pool_id (s : ContractState) (k : Nat) (p : Pool)
    (hWF : StoreWF s) (hget : poolsGet s.pools k = some p) : p.pool_id = k :=
  hWF.2 (k, p) (mem_of_poolsGet_eq_some s.pools k p hget)

/-! ## Sanity checks mirroring the unit tests of helpers.rs -/

example : convert_redemption_rate_to_scaling_factors ⟨10 ^ 18⟩
    AssetOrdering.stTokenFirst = some [100000, 100000] := by decide

example : convert_redemption_rate_to_scaling_factors ⟨12 * 10 ^ 17⟩
    AssetOrdering.nativeTokenFirst = some [120000, 100000] := by decide

example : convert_redemption_rate_to_scaling_factors ⟨125 * 10 ^ 16⟩
    AssetOrdering.stTokenFirst = some [100000, 125000] := by decide

example : convert_redemption_rate_to_scaling_factors ⟨125236 * 10 ^ 13⟩
    AssetOrdering.nativeTokenFirst = some [125236, 100000] := by decide

example : convert_redemption_rate_to_scaling_factors ⟨1252369923948298234⟩
    AssetOrdering.stTokenFirst = some [100000, 125236] := by decide

example : convert_redemption_rate_to_scaling_factors ⟨9837 * 10 ^ 14⟩
    AssetOrdering.nativeTokenFirst = some [98370, 100000] := by decide

example : convert_redemption_rate_to_scaling_factors ⟨0⟩
    AssetOrdering.stTokenFirst = some [100000, 0] := by decide

example : validate_pool_configuration
    ⟨2, [⟨"native", "100000"⟩, ⟨"ibc/sttoken", "100000"⟩]⟩
    2 "ibc/sttoken" AssetOrdering.nativeTokenFirst = Except.ok () := rfl

example : validate_pool_configuration
    ⟨3, [⟨"ibc/sttoken", "100000"⟩, ⟨"native", "100000"⟩]⟩
    2 "ibc/sttoken" AssetOrdering.stTokenFirst
    = Except.error (ContractError.poolNotFoundOsmosis 2) := rfl

example : validate_pool_configuration
    ⟨1, [⟨"denom1", "1"⟩, ⟨"denom2", "1"⟩, ⟨"denom3", "1"⟩]⟩
    1 "denom1" AssetOrdering.stTokenFirst
    = Except.error (ContractError.invalidNumberOfPoolAssets 3) := rfl

example : validate_pool_configuration
    ⟨2, [⟨"native", "100000"⟩, ⟨"ibc/sttoken", "100000"⟩]⟩
    2 "ibc/sttoken" AssetOrdering.stTokenFirst
    = Except.error ContractError.invalidPoolAssetOrdering := rfl

/-! ## Claim C1 (corrected) -/

/-- C1 counterexample: at the rate whose fixed-point value is 2^64 / 100000
    (atomics 2^64 * 10^13), the converter returns 0 in the non-unity
    position, not floor(r * 100000) = 2^64: the claimed identity between the
    returned factor and the exact floor fails, because the Rust result is
    cast u128 to u64 and wraps. -/
theorem C1_counterexample :
    convert_redemption_rate_to_scaling_factors ⟨18446744073709551616 * 10 ^ 13⟩
        AssetOrdering.stTokenFirst
      ≠ some [100000, specFloorScaled ⟨18446744073709551616 * 10 ^ 13⟩] := by
  rw [specFloorScaled_eq]
  decide

/-- C1 (amended): whenever the converter returns (the fixed-point
    multiplication did not overflow-panic), the result is a two-element
    array with 100000 in the position of the staking-derivative asset
    (index 0 for StTokenFirst, index 1 for NativeTokenFirst) and
    floor(r * 100000) reduced modulo 2^64 in the other position; the other
    position carries exactly floor(r * 100000), truncating rather than
    rounding, whenever that floor is below 2^64. -/
theorem C1_convert_positions_and_floor :
    ∀ (r : Decimal) (ord : AssetOrdering) (factors : List Nat),
      convert_redemption_rate_to_scaling_factors r ord = some factors →
      (factors = match ord with
        | AssetOrdering.stTokenFirst => [100000, specFloorScaled r % 2 ^ 64]
        | AssetOrdering.nativeTokenFirst => [specFloorScaled r % 2 ^ 64, 100000]) ∧
      (specFloorScaled r < 2 ^ 64 →
        factors = match ord with
          | AssetOrdering.stTokenFirst => [100000, specFloorScaled r]
          | AssetOrdering.nativeTokenFirst => [specFloorScaled r, 100000]) := by
  intro r ord factors h
  rw [convert_closed_form] at h
  by_cases hb : r.atomics * 100000 < 2 ^ 128
  · rw [if_pos hb] at h
    obtain rfl := (Option.some.injEq .. ▸ h).symm
    constructor
    · rw [specFloorScaled_eq]
    · intro hlt
      rw [specFloorScaled_eq] at hlt ⊢
      rw [Nat.mod_eq_of_lt hlt]
  · rw [if_neg hb] at h
    exact absurd h (by simp)

/-- C1 witness: the amended theorem applied at the rate 1.2 with the native
    token first, where the conversion yields [120000, 100000]. -/
theorem C1_witness :
    convert_redemption_rate_to_scaling_factors ⟨12 * 10 ^ 17⟩
        AssetOrdering.nativeTokenFirst = some [120000, 100000] ∧
      (([120000, 100000] : List Nat)
          = [specFloorScaled ⟨12 * 10 ^ 17⟩ % 2 ^ 64, 100000] ∧
        (specFloorScaled ⟨12 * 10 ^ 17⟩ < 2 ^ 64 →
          ([120000, 100000] : List Nat) = [specFloorScaled ⟨12 * 10 ^ 17⟩, 100000])) := by
  refine ⟨by decide, ?_⟩
  exact C1_convert_positions_and_floor ⟨12 * 10 ^ 17⟩
    AssetOrdering.nativeTokenFirst [120000, 100000] (by decide)

/-! ## Claim C2 (confirmed) -/

/-- C2: validate_pool_configuration checks its three rules in order with
    the first failure winning: an id mismatch fails PoolNotFoundOsmosis
    with the declared pool id; otherwise an asset count other than two
    fails InvalidNumberOfPoolAssets with that count; otherwise a denom
    mismatch at the index implied by the declared ordering (StTokenFirst
    maps to index 0, NativeTokenFirst to index 1) fails
    InvalidPoolAssetOrdering; otherwise it returns ok.  The function is a
    pure Lean function of its four arguments, hence side-effect-free. -/
theorem C2_validate_rules :
    ∀ (pool : StableswapPool) (pid : Nat) (denom : String) (ord : AssetOrdering),
      (expectedSttokenIndex AssetOrdering.stTokenFirst = 0 ∧
        expectedSttokenIndex AssetOrdering.nativeTokenFirst = 1) ∧
      (pool.id ≠ pid →
        validate_pool_configuration pool pid denom ord
          = Except.error (ContractError.poolNotFoundOsmosis pid)) ∧
      (pool.id = pid → pool.pool_liquidity.length ≠ 2 →
        validate_pool_configuration pool pid denom ord
          = Except.error (ContractError.invalidNumberOfPoolAssets
              pool.pool_liquidity.length)) ∧
      (pool.id = pid → pool.pool_liquidity.length = 2 →
        (pool.pool_liquidity.getD (expectedSttokenIndex ord) default).denom ≠ denom →
        validate_pool_configuration pool pid denom ord
          = Except.error ContractError.invalidPoolAssetOrdering) ∧
      (pool.id = pid → pool.pool_liquidity.length = 2 →
        (pool.pool_liquidity.getD (expectedSttokenIndex ord) default).denom = denom →
        validate_pool_configuration pool pid denom ord = Except.ok ()) := by
  intro pool pid denom ord
  refine ⟨⟨rfl, rfl⟩, ?_, ?_, ?_, ?_⟩
  · intro hne
    unfold validate_pool_configuration
    rw [if_pos (fun e => hne e.symm)]
  · intro heq hlen
    unfold validate_pool_configuration
    rw [if_neg (fun h => h heq.symm), if_pos hlen]
  · intro heq hlen hdenom
    unfold validate_pool_configuration
    rw [if_neg (fun h => h heq.symm), if_neg (fun h => h hlen),
      if_pos (fun e => hdenom e.symm)]
  · intro heq hlen hdenom
    unfold validate_pool_configuration
    rw [if_neg (fun h => h heq.symm), if_neg (fun h => h hlen),
      if_neg (fun h => h hdenom.symm)]

/-- C2 witness: the theorem applied to a correctly configured two-asset
    pool (success case) with all hypotheses discharged concretely. -/
theorem C2_witness :
    validate_pool_configuration
        ⟨2, [⟨"ibc/sttoken", "100000"⟩, ⟨"native", "100000"⟩]⟩
        2 "ibc/sttoken" AssetOrdering.stTokenFirst = Except.ok () :=
  (C2_validate_rules ⟨2, [⟨"ibc/sttoken", "100000"⟩, ⟨"native", "100000"⟩]⟩
    2 "ibc/sttoken" AssetOrdering.stTokenFirst).2.2.2.2 rfl rfl rfl

/-! ## Claim C4 (corrected) -/

/-- C4 counterexample: at the rate (2^64 + 5) / 100000 the exact floor is
    2^64 + 5, but the converter returns 5: the value is wrapped by the
    u128 to u64 cast, contradicting the claim that an arbitrarily large
    rate yields an arbitrarily large integer with no truncation. -/
theorem C4_counterexample :
    convert_redemption_rate_to_scaling_factors ⟨(2 ^ 64 + 5) * 10 ^ 13⟩
        AssetOrdering.nativeTokenFirst = some [5, 100000] ∧
      specFloorScaled ⟨(2 ^ 64 + 5) * 10 ^ 13⟩ = 2 ^ 64 + 5 ∧
      (5 : Nat) ≠ 2 ^ 64 + 5 := by
  refine ⟨by decide, ?_, by decide⟩
  rw [specFloorScaled_eq]
  decide

/-- C4 (amended): the conversion computes floor(rate * 100000) exactly in
    fixed-point arithmetic but the result is cast u128 to u64: whenever the
    multiplication does not overflow-panic the non-unity factor is
    floor(rate * 100000) modulo 2^64 (so values of 2^64 and above wrap
    rather than growing without bound), and when atomics * 100000 reaches
    2^128 the multiplication panics and no value is returned. -/
theorem C4_convert_wraps_at_u64 :
    ∀ (r : Decimal),
      (r.atomics * 100000 < 2 ^ 128 →
        convert_redemption_rate_to_scaling_factors r AssetOrdering.nativeTokenFirst
            = some [specFloorScaled r % 2 ^ 64, 100000] ∧
        convert_redemption_rate_to_scaling_factors r AssetOrdering.stTokenFirst
            = some [100000, specFloorScaled r % 2 ^ 64]) ∧
      (2 ^ 128 ≤ r.atomics * 100000 →
        convert_redemption_rate_to_scaling_factors r AssetOrdering.nativeTokenFirst
            = none ∧
        convert_redemption_rate_to_scaling_factors r AssetOrdering.stTokenFirst
            = none) := by
  intro r
  constructor
  · intro hb
    rw [convert_closed_form, convert_closed_form, if_pos hb, if_pos hb,
      specFloorScaled_eq]
    exact ⟨rfl, rfl⟩
  · intro hb
    have hb' : ¬ r.atomics * 100000 < 2 ^ 128 := not_lt.mpr hb
    rw [convert_closed_form, convert_closed_form, if_neg hb', if_neg hb']
    exact ⟨rfl, rfl⟩

/-- C4 witness: the amended theorem applied at the rate 1.0, in range, where
    the non-unity factor is the exact floor 100000. -/
theorem C4_witness :
    convert_redemption_rate_to_scaling_factors ⟨10 ^ 18⟩
        AssetOrdering.nativeTokenFirst
      = some [specFloorScaled ⟨10 ^ 18⟩ % 2 ^ 64, 100000] ∧
    convert_redemption_rate_to_scaling_factors ⟨10 ^ 18⟩
        AssetOrdering.stTokenFirst
      = some [100000, specFloorScaled ⟨10 ^ 18⟩ % 2 ^ 64] :=
  (C4_convert_wraps_at_u64 ⟨10 ^ 18⟩).1 (by decide)

/-! ## Claim C3 (confirmed) -/

/-- C3: for every caller that is not the configured admin address, the
    update_config, add_pool, remove_pool and sudo_adjust_scaling_factors
    handlers fail with Unauthorized, returning the state unchanged and
    independently of any external querier (the guard fires before any
    state change or external query); update_scaling_factor performs no
    admin check and for any caller never fails with Unauthorized. -/
theorem C3_admin_gating :
    ∀ (s : ContractState) (env : Env) (info : MessageInfo),
      (info.sender ≠ s.config.admin_address →
        (∀ a o, execute_update_config s info a o
            = (some (Except.error ContractError.unauthorized), s)) ∧
        (∀ ammQ pid d ord, execute_add_pool ammQ s info pid d ord
            = (some (Except.error ContractError.unauthorized), s)) ∧
        (∀ pid, execute_remove_pool s info pid
            = (some (Except.error ContractError.unauthorized), s)) ∧
        (∀ pid factors, execute_sudo_adjust_scaling_factors s env info pid factors
            = (some (Except.error ContractError.unauthorized), s))) ∧
      (∀ oracleQ pid, (execute_update_scaling_factor oracleQ s env pid).1
          ≠ some (Except.error ContractError.unauthorized)) := by
  intro s env info
  constructor
  · intro hne
    refine ⟨?_, ?_, ?_, ?_⟩
    · intro a o
      unfold execute_update_config
      rw [if_pos hne]
    · intro ammQ pid d ord
      unfold execute_add_pool
      rw [if_pos hne]
    · intro pid
      unfold execute_remove_pool
      rw [if_pos hne]
    · intro pid factors
      unfold execute_sudo_adjust_scaling_factors
      rw [if_pos hne]
  · intro oracleQ pid
    unfold execute_update_scaling_factor
    split
    · simp
    · split
      · simp
      · split
        · simp
        · split
          · simp
          · simp

/-- C3 witness: a non-admin caller is rejected by remove_pool while the
    permissionless refresh never reports Unauthorized, at concrete inputs. -/
theorem C3_witness :
    execute_remove_pool wState ⟨"mallory"⟩ 2
        = (some (Except.error ContractError.unauthorized), wState) ∧
      (execute_update_scaling_factor wOracleQ wState wEnv 2).1
        ≠ some (Except.error ContractError.unauthorized) :=
  ⟨((C3_admin_gating wState wEnv ⟨"mallory"⟩).1 (by decide)).2.2.1 2,
    (C3_admin_gating wState wEnv ⟨"mallory"⟩).2 wOracleQ 2⟩

/-! ## Claim C8 (confirmed) -/

/-- C8: every execute operation is atomic on failure: whenever the
    dispatcher returns an error, the persistent state (config and pool
    registry) is exactly the state before the call. -/
theorem C8_atomic_on_error :
    ∀ (ammQ : AmmQuerier) (oracleQ : OracleQuerier) (s : ContractState)
      (env : Env) (info : MessageInfo) (msg : ExecuteMsg)
      (err : ContractError) (s' : ContractState),
      execute ammQ oracleQ s env info msg = (some (Except.error err), s') →
      s' = s := by
  intro ammQ oracleQ s env info msg err s' h
  cases msg <;>
    simp only [execute, execute_update_config, execute_add_pool,
      execute_remove_pool, execute_update_scaling_factor,
      execute_sudo_adjust_scaling_factors] at h <;>
    (repeat' split at h) <;>
    first
      | exact (congrArg Prod.snd h).symm
      | simp at h

/-- C8 witness: the theorem applied to a concrete failing call (removing an
    unregistered pool), whose error leaves the state untouched. -/
theorem C8_witness : wState = wState :=
  C8_atomic_on_error wAmmQ wOracleQ wState wEnv ⟨"admin"⟩
    (ExecuteMsg.removePool 99) (ContractError.poolNotFound 99) wState rfl

/-! ## Claim C9 (confirmed) -/

/-- C9: for an admin caller supplying a factor pair (the spec types the
    field as a two-element array; any length of at least two behaves the
    same way), sudo_adjust_scaling_factors writes no state, succeeds with
    exactly one adjust instruction built directly from the caller-supplied
    factors whether or not the pool id is registered, and its outcome is
    independent of the pool registry (it reads neither the registry nor
    any oracle: the handler takes no querier at all). -/
theorem C9_sudo_bypass :
    ∀ (s t : ContractState) (env : Env) (info : MessageInfo) (pid : Nat)
      (factors : List Nat),
      info.sender = s.config.admin_address →
      2 ≤ factors.length →
      (execute_sudo_adjust_scaling_factors s env info pid factors).2 = s ∧
      (∃ resp, (execute_sudo_adjust_scaling_factors s env info pid factors).1
          = some (Except.ok resp) ∧
        resp.messages = [{ sender := env.contract_address, pool_id := pid,
                           scaling_factors := factors }]) ∧
      (t.config = s.config →
        (execute_sudo_adjust_scaling_factors t env info pid factors).1
          = (execute_sudo_adjust_scaling_factors s env info pid factors).1 ∧
        (execute_sudo_adjust_scaling_factors t env info pid factors).2 = t) := by
  intro s t env info pid factors hsender hlen
  have hs : ¬ info.sender ≠ s.config.admin_address := fun hne => hne hsender
  cases factors with
  | nil => simp at hlen
  | cons f0 tl =>
      cases tl with
      | nil => simp at hlen
      | cons f1 rest =>
          refine ⟨?_, ?_, ?_⟩
          · unfold execute_sudo_adjust_scaling_factors
            rw [if_neg hs]
            rfl
          · refine ⟨{ attributes :=
                        [("action", "sudo_adjust_scaling_factors"),
                         ("pool_id", toString pid),
                         ("scaling_factors",
                          "[" ++ toString f0 ++ "," ++ toString f1 ++ "]")],
                      messages :=
                        [{ sender := env.contract_address, pool_id := pid,
                           scaling_factors := f0 :: f1 :: rest }] }, ?_, rfl⟩
            unfold execute_sudo_adjust_scaling_factors
            rw [if_neg hs]
            rfl
          · intro hconf
            have ht : ¬ info.sender ≠ t.config.admin_address := by
              rw [hconf]
              exact hs
            unfold execute_sudo_adjust_scaling_factors
            rw [if_neg hs, if_neg ht]
            exact ⟨rfl, rfl⟩

/-- C9 witness: the theorem at a concrete admin call with factors [3, 4]
    against the one-pool state and the empty-registry state sharing the
    same config. -/
theorem C9_witness :
    (execute_sudo_adjust_scaling_factors wState wEnv ⟨"admin"⟩ 9 [3, 4]).2 = wState ∧
      (∃ resp,
        (execute_sudo_adjust_scaling_factors wState wEnv ⟨"admin"⟩ 9 [3, 4]).1
            = some (Except.ok resp) ∧
          resp.messages = [{ sender := wEnv.contract_address, pool_id := 9,
                             scaling_factors := [3, 4] }]) ∧
      ((⟨⟨"admin", "oracle"⟩, []⟩ : ContractState).config = wState.config →
        (execute_sudo_adjust_scaling_factors ⟨⟨"admin", "oracle"⟩, []⟩ wEnv
              ⟨"admin"⟩ 9 [3, 4]).1
          = (execute_sudo_adjust_scaling_factors wState wEnv ⟨"admin"⟩ 9 [3, 4]).1 ∧
        (execute_sudo_adjust_scaling_factors ⟨⟨"admin", "oracle"⟩, []⟩ wEnv
              ⟨"admin"⟩ 9 [3, 4]).2
          = (⟨⟨"admin", "oracle"⟩, []⟩ : ContractState)) :=
  C9_sudo_bypass wState ⟨⟨"admin", "oracle"⟩, []⟩ wEnv ⟨"admin"⟩ 9 [3, 4]
    rfl (by decide)

/-! ## Claim C10 (confirmed) -/

/-- C10: sudo_adjust_scaling_factors takes an unchecked variable-length
    factor list and unconditionally indexes elements 0 and 1 when
    formatting the response attributes: an admin call with fewer than two
    factors panics (modelled as the none outcome) instead of returning an
    error, and with at least two factors it succeeds, so totality requires
    at least two factors. -/
theorem C10_sudo_panics_on_short_factors :
    ∀ (s : ContractState) (env : Env) (info : MessageInfo) (pid : Nat)
      (factors : List Nat),
      info.sender = s.config.admin_address →
      (factors.length < 2 →
        execute_sudo_adjust_scaling_factors s env info pid factors = (none, s)) ∧
      (2 ≤ factors.length →
        ∃ resp, (execute_sudo_adjust_scaling_factors s env info pid factors).1
            = some (Except.ok resp)) := by
  intro s env info pid factors hsender
  have hs : ¬ info.sender ≠ s.config.admin_address := fun hne => hne hsender
  constructor
  · intro hshort
    cases factors with
    | nil =>
        unfold execute_sudo_adjust_scaling_factors
        rw [if_neg hs]
        rfl
    | cons f0 tl =>
        cases tl with
        | nil =>
            unfold execute_sudo_adjust_scaling_factors
            rw [if_neg hs]
            rfl
        | cons f1 rest =>
            exfalso
            simp only [List.length_cons] at hshort
            omega
  · intro hlen
    cases factors with
    | nil => simp at hlen
    | cons f0 tl =>
        cases tl with
        | nil => simp at hlen
        | cons f1 rest =>
            have hrun : (execute_sudo_adjust_scaling_factors s env info pid
                  (f0 :: f1 :: rest)).1
                = some (Except.ok
                    { attributes :=
                        [("action", "sudo_adjust_scaling_factors"),
                         ("pool_id", toString pid),
                         ("scaling_factors",
                          "[" ++ toString f0 ++ "," ++ toString f1 ++ "]")],
                      messages :=
                        [{ sender := env.contract_address, pool_id := pid,
                           scaling_factors := f0 :: f1 :: rest }] }) := by
              unfold execute_sudo_adjust_scaling_factors
              rw [if_neg hs]
              rfl
            exact ⟨_, hrun⟩

/-! ## Claims C5 and C6: the permissionless refresh -/

/-- Helper: a successful conversion always yields exactly two factors. -/
theorem convert_shape (r : Decimal) (ord : AssetOrdering) (fs : List Nat)
    (h : convert_redemption_rate_to_scaling_factors r ord = some fs) :
    ∃ a b, fs = [a, b] := by
  rw [convert_closed_form] at h
  by_cases hb : r.atomics * 100000 < 2 ^ 128
  · rw [if_pos hb] at h
    cases ord <;> exact ⟨_, _, ((Option.some.injEq .. ▸ h).symm : fs = _)⟩
  · rw [if_neg hb] at h
    exact absurd h (by simp)

/-- C5: for a registered pool the refresh queries the oracle with the
    RedemptionRate variant (denom set to the pool's sttoken denom, params
    none) addressed to the configured oracle contract, wraps a query
    failure as UnableToQueryRedemptionRate carrying the sttoken denom and
    the underlying error text, and on success reads the redemption_rate
    field of the response and proceeds with it.  (contract.rs does behave
    exactly so, but msg.rs, the declared oracle interface under src/,
    declares no RedemptionRate variant: only Price; see
    ContractOracleQueryMsg.) -/
theorem C5_oracle_query :
    ∀ (oracleQ : OracleQuerier) (s : ContractState) (env : Env) (pid : Nat)
      (pool : Pool),
      poolsGet s.pools pid = some pool →
      (∀ e, oracleQ { contract_addr := s.config.oracle_contract_address,
                      msg := ContractOracleQueryMsg.redemptionRate pool.sttoken_denom none }
          = Except.error e →
        execute_update_scaling_factor oracleQ s env pid
          = (some (Except.error (ContractError.unableToQueryRedemptionRate
              pool.sttoken_denom e)), s)) ∧
      (∀ rr factors,
        oracleQ { contract_addr := s.config.oracle_contract_address,
                  msg := ContractOracleQueryMsg.redemptionRate pool.sttoken_denom none }
          = Except.ok rr →
        convert_redemption_rate_to_scaling_factors rr.redemption_rate
            pool.asset_ordering = some factors →
        ∃ resp, (execute_update_scaling_factor oracleQ s env pid).1
            = some (Except.ok resp) ∧
          resp.messages = [{ sender := env.contract_address, pool_id := pid,
                             scaling_factors := factors }]) := by
  intro oracleQ s env pid pool hget
  constructor
  · intro e he
    unfold execute_update_scaling_factor
    split
    · rename_i heq
      rw [hget] at heq
      exact absurd heq (by simp)
    · rename_i pool2 heq
      rw [hget] at heq
      injection heq with hpool
      subst hpool
      rw [he]
  · intro rr factors hok hconv
    obtain ⟨a, b, rfl⟩ := convert_shape rr.redemption_rate pool.asset_ordering
      factors hconv
    unfold execute_update_scaling_factor
    split
    · rename_i heq
      rw [hget] at heq
      exact absurd heq (by simp)
    · rename_i pool2 heq
      rw [hget] at heq
      injection heq with hpool
      subst hpool
      simp only [hok, hconv, List.get?_cons_zero, List.get?_cons_succ]
      exact ⟨_, rfl, rfl⟩

/-- C5 witness: the theorem applied at a concrete registered pool with a
    failing oracle querier, yielding the wrapped error. -/
theorem C5_witness :
    execute_update_scaling_factor wOracleQFail wState wEnv 2
      = (some (Except.error (ContractError.unableToQueryRedemptionRate
          "stuosmo" "Unknown")), wState) :=
  (C5_oracle_query wOracleQFail wState wEnv 2 wPool rfl).1 "Unknown" rfl

/-- C6: a successful refresh of a registered pool at block time T mutates
    only the pool's last_updated field (set to T), leaves the pool's id,
    denom and ordering and every other registry entry and the config
    unchanged, and emits exactly one adjust instruction carrying the
    factors computed from the oracle rate. -/
theorem C6_refresh_frame :
    ∀ (oracleQ : OracleQuerier) (s : ContractState) (env : Env) (pid : Nat)
      (pool : Pool) (resp : Response) (s' : ContractState),
      poolsGet s.pools pid = some pool →
      execute_update_scaling_factor oracleQ s env pid
        = (some (Except.ok resp), s') →
      s'.config = s.config ∧
      poolsGet s'.pools pid = some { pool with last_updated := env.block_time } ∧
      (∀ k, k ≠ pid → poolsGet s'.pools k = poolsGet s.pools k) ∧
      ∃ rr factors,
        oracleQ { contract_addr := s.config.oracle_contract_address,
                  msg := ContractOracleQueryMsg.redemptionRate pool.sttoken_denom none }
          = Except.ok rr ∧
        convert_redemption_rate_to_scaling_factors rr.redemption_rate
            pool.asset_ordering = some factors ∧
        resp.messages = [{ sender := env.contract_address, pool_id := pid,
                           scaling_factors := factors }] := by
  intro oracleQ s env pid pool resp s' hget hrun
  unfold execute_update_scaling_factor at hrun
  split at hrun
  · exact absurd hrun (by simp)
  · rename_i pool2 heq
    rw [hget] at heq
    injection heq with hpool
    subst hpool
    split at hrun
    · exact absurd hrun (by simp)
    · rename_i rr heq2
      split at hrun
      · exact absurd hrun (by simp)
      · rename_i factors heq3
        obtain ⟨a, b, rfl⟩ := convert_shape rr.redemption_rate
          pool.asset_ordering factors heq3
        split at hrun
        · rename_i sf0 sf1 heq4 heq5
          simp only [List.get?_cons_zero, List.get?_cons_succ,
            Option.some.injEq] at heq4 heq5
          subst heq4
          subst heq5
          rw [Prod.mk.injEq] at hrun
          obtain ⟨h1, h2⟩ := hrun
          simp only [Option.some.injEq, Except.ok.injEq] at h1
          subst h1
          subst h2
          refine ⟨rfl, ?_, ?_, ⟨rr, [a, b], heq2, heq3, rfl⟩⟩
          · exact poolsGet_save_self s.pools pid _
          · intro k hk
            exact poolsGet_save_ne s.pools pid k _ hk
        · exact absurd hrun (by simp)

/-- C6 witness: the theorem applied to a concrete successful refresh of the
    registered pool 2 at block time 1000000 with oracle rate 1.2. -/
theorem C6_witness :
    (⟨⟨"admin", "oracle"⟩,
        [(2, ⟨2, "stuosmo", AssetOrdering.stTokenFirst, 1000000⟩)]⟩ :
          ContractState).config = wState.config ∧
      poolsGet [(2, (⟨2, "stuosmo", AssetOrdering.stTokenFirst, 1000000⟩ : Pool))] 2
        = some { wPool with last_updated := wEnv.block_time } ∧
      (∀ k, k ≠ 2 →
        poolsGet [(2, (⟨2, "stuosmo", AssetOrdering.stTokenFirst, 1000000⟩ : Pool))] k
          = poolsGet wState.pools k) ∧
      ∃ rr factors,
        wOracleQ { contract_addr := wState.config.oracle_contract_address,
                   msg := ContractOracleQueryMsg.redemptionRate wPool.sttoken_denom none }
          = Except.ok rr ∧
        convert_redemption_rate_to_scaling_factors rr.redemption_rate
            wPool.asset_ordering = some factors ∧
        ({ attributes :=
             [("action", "update_scaling_factor"),
              ("pool_id", "2"),
              ("redemption_rate", "1.2"),
              ("scaling_factors", "[100000, 120000]")],
           messages := [⟨"cosmos2contract", 2, [100000, 120000]⟩] } :
             Response).messages
          = [{ sender := wEnv.contract_address, pool_id := 2,
               scaling_factors := factors }] :=
  C6_refresh_frame wOracleQ wState wEnv 2 wPool
    { attributes :=
        [("action", "update_scaling_factor"),
         ("pool_id", "2"),
         ("redemption_rate", "1.2"),
         ("scaling_factors", "[100000, 120000]")],
      messages := [⟨"cosmos2contract", 2, [100000, 120000]⟩] }
    ⟨⟨"admin", "oracle"⟩, [(2, ⟨2, "stuosmo", AssetOrdering.stTokenFirst, 1000000⟩)]⟩
    rfl rfl

/-- C10 witness: the admin call with the empty factor list panics at a
    concrete state, and the same call with [1, 1] succeeds. -/
theorem C10_witness :
    execute_sudo_adjust_scaling_factors wState wEnv ⟨"admin"⟩ 2 []
        = (none, wState) ∧
      ∃ resp,
        (execute_sudo_adjust_scaling_factors wState wEnv ⟨"admin"⟩ 2 [1, 1]).1
          = some (Except.ok resp) :=
  ⟨(C10_sudo_panics_on_short_factors wState wEnv ⟨"admin"⟩ 2 [] rfl).1 (by decide),
    (C10_sudo_panics_on_short_factors wState wEnv ⟨"admin"⟩ 2 [1, 1] rfl).2 (by decide)⟩

/-! ## Claim C7 (confirmed): registry round-trip and listing -/

/-- C7: the registry behaves as specified: the freshly instantiated store
    is well formed and every execute operation preserves well-formedness;
    a successful add stores exactly the record with the given id, denom
    and ordering and last_updated 0, retrievable by the Pool query; an
    admin add on an already-registered id fails PoolAlreadyExists with the
    state unchanged; a successful remove deletes exactly the removed id
    and no other entry; and on every well-formed store the AllPools query
    returns exactly the currently registered pools in strictly ascending
    pool_id order. -/
theorem C7_registry :
    (∀ (admin oracle : String), StoreWF (instantiate admin oracle)) ∧
    (∀ (ammQ : AmmQuerier) (oracleQ : OracleQuerier) (s : ContractState)
        (env : Env) (info : MessageInfo) (msg : ExecuteMsg),
      StoreWF s → StoreWF (execute ammQ oracleQ s env info msg).2) ∧
    (∀ (ammQ : AmmQuerier) (s : ContractState) (info : MessageInfo)
        (pid : Nat) (d : String) (ord : AssetOrdering) (resp : Response)
        (s' : ContractState),
      execute_add_pool ammQ s info pid d ord = (some (Except.ok resp), s') →
      query_pool s' pid = some { pool_id := pid, sttoken_denom := d,
                                 asset_ordering := ord, last_updated := 0 }) ∧
    (∀ (ammQ : AmmQuerier) (s : ContractState) (info : MessageInfo)
        (pid : Nat) (d : String) (ord : AssetOrdering),
      info.sender = s.config.admin_address →
      poolsHas s.pools pid = true →
      execute_add_pool ammQ s info pid d ord
        = (some (Except.error (ContractError.poolAlreadyExists pid)), s)) ∧
    (∀ (s : ContractState) (info : MessageInfo) (pid : Nat) (resp : Response)
        (s' : ContractState),
      execute_remove_pool s info pid = (some (Except.ok resp), s') →
      query_pool s' pid = none ∧
        ∀ k, k ≠ pid → query_pool s' k = query_pool s k) ∧
    (∀ (s : ContractState),
      StoreWF s →
      List.Pairwise (fun a b => a < b)
        ((query_all_pools s).pools.map Pool.pool_id) ∧
      ∀ p, p ∈ (query_all_pools s).pools ↔ query_pool s p.pool_id = some p) := by
  refine ⟨?_, ?_, ?_, ?_, ?_, ?_⟩
  · intro admin oracle
    exact ⟨List.Pairwise.nil, by simp [instantiate]⟩
  · intro ammQ oracleQ s env info msg hWF
    cases msg with
    | updateConfig a o =>
        simp only [execute]
        unfold execute_update_config
        split
        · exact hWF
        · exact hWF
    | addPool pid d ord =>
        simp only [execute]
        unfold execute_add_pool
        split
        · exact hWF
        · split
          · exact hWF
          · split
            · exact hWF
            · exact hWF
            · split
              · exact hWF
              · exact storeWF_save s pid _ hWF rfl
    | removePool pid =>
        simp only [execute]
        unfold execute_remove_pool
        split
        · exact hWF
        · split
          · exact hWF
          · exact storeWF_remove s pid hWF
    | updateScalingFactor pid =>
        simp only [execute]
        unfold execute_update_scaling_factor
        split
        · exact hWF
        · rename_i pool heq
          split
          · exact hWF
          · split
            · exact hWF
            · split
              · exact storeWF_save s pid _ hWF
                  (storeWF_get_pool_id s pid pool hWF heq)
              · exact hWF
    | sudoAdjustScalingFactors pid factors =>
        simp only [execute]
        unfold execute_sudo_adjust_scaling_factors
        split
        · exact hWF
        · split
          · exact hWF
          · exact hWF
  · intro ammQ s info pid d ord resp s' h
    unfold execute_add_pool at h
    split at h
    · exact absurd h (by simp)
    · split at h
      · exact absurd h (by simp)
      · split at h
        · exact absurd h (by simp)
        · exact absurd h (by simp)
        · split at h
          · exact absurd h (by simp)
          · rw [Prod.mk.injEq] at h
            obtain ⟨h1, h2⟩ := h
            subst h2
            exact poolsGet_save_self s.pools pid _
  · intro ammQ s info pid d ord hsender hhas
    have hs : ¬ info.sender ≠ s.config.admin_address := fun hne => hne hsender
    unfold execute_add_pool
    rw [if_neg hs, if_pos hhas]
  · intro s info pid resp s' h
    unfold execute_remove_pool at h
    split at h
    · exact absurd h (by simp)
    · split at h
      · exact absurd h (by simp)
      · rw [Prod.mk.injEq] at h
        obtain ⟨h1, h2⟩ := h
        subst h2
        refine ⟨poolsGet_remove_self s.pools pid, ?_⟩
        intro k hk
        exact poolsGet_remove_ne s.pools pid k hk
  · intro s hWF
    have hmaps : (s.pools.map Prod.snd).map Pool.pool_id = s.pools.map Prod.fst := by
      rw [List.map_map]
      exact List.map_congr_left (fun kv hkv => hWF.2 kv hkv)
    constructor
    · show List.Pairwise (fun a b => a < b)
        ((s.pools.map Prod.snd).map Pool.pool_id)
      rw [hmaps]
      exact hWF.1
    · intro p
      constructor
      · intro hp
        obtain ⟨kv, hkv, hsnd⟩ := List.mem_map.mp hp
        have hid : p.pool_id = kv.fst := by
          rw [← hsnd]
          exact hWF.2 kv hkv
        show poolsGet s.pools p.pool_id = some p
        rw [hid, ← hsnd]
        exact poolsGet_eq_some_of_mem s.pools kv.fst kv.snd hWF.1 hkv
      · intro hp
        have hmem := mem_of_poolsGet_eq_some s.pools p.pool_id p hp
        exact List.mem_map.mpr ⟨(p.pool_id, p), hmem, rfl⟩

/-- C7 witness: the theorem applied to a concrete successful add on the
    freshly instantiated store (round-trip of the stored record) and to
    the concrete one-pool store (ascending listing), with all hypotheses
    discharged concretely. -/
theorem C7_witness :
    query_pool
        ((execute_add_pool wAmmQ (instantiate "admin" "oracle") ⟨"admin"⟩
            7 "stX" AssetOrdering.stTokenFirst).2) 7
      = some { pool_id := 7, sttoken_denom := "stX",
               asset_ordering := AssetOrdering.stTokenFirst, last_updated := 0 } ∧
    List.Pairwise (fun a b => a < b)
      ((query_all_pools wState).pools.map Pool.pool_id) :=
  ⟨C7_registry.2.2.1 wAmmQ (instantiate "admin" "oracle") ⟨"admin"⟩
      7 "stX" AssetOrdering.stTokenFirst
      { attributes :=
          [("action", "add_pool"),
           ("pool_id", "7"),
           ("pool_sttoken_denom", "stX"),
           ("pool_asset_ordering", "st_token_first")],
        messages := [] }
      ⟨⟨"admin", "oracle"⟩,
        [(7, ⟨7, "stX", AssetOrdering.stTokenFirst, 0⟩)]⟩
      rfl,
    (C7_registry.2.2.2.2.2 wState (by decide)).1⟩

end StScalingFactor
